import Mathlib

/-!
Shallow embedding of `src/fillFeed.ts` (the `FillFeed` class and its helpers).

The remote ledger RPC (`connection.getSignaturesForAddress`,
`connection.getTransaction`), the base64/borsh event decoding layers
(`atob`, discriminator match, `FillLog.deserialize`,
`PlaceOrderLog.deserialize`) and real wall-clock time are external
collaborators of the source file.  They appear here as explicit inputs:

* the batches returned by successive `getSignaturesForAddress` polls are the
  `raw : List SignatureRecord` inputs (delivered most-recent-first, exactly
  as the source receives them before it calls `signatures.reverse()`);
* `getTx : String → Option Tx` stands for `connection.getTransaction`;
* `decode : String → Except String (Option ε)` stands for the composite
  `atob` + discriminator comparison + `deserialize` step applied to one
  program-data payload string: `.error` models a thrown exception,
  `.ok none` models a payload whose first eight bytes match no known
  discriminator (the source's `else continue` branch), and `.ok (some e)`
  models a decoded event that gets fanned out;
* `Date.now()` readings are `now : Nat` inputs, and the `ended`-flag
  observations made by `stopParseLogs` while the loop runs concurrently are
  an `ended : Nat → Bool` stream indexed by elapsed milliseconds.

JavaScript data structures are embedded as: a `Set<string>` is a
`List String` in insertion order (`add` appends when absent, `delete`
erases, `Array.from` is the identity on the insertion-order list), and
`String.prototype.split(" ")` is a single-character split that keeps the
empty tokens produced by consecutive separators, exactly as in JS.
-/

/-- Poll every 500ms (`POLL_INTERVAL` in the source). -/
def POLL_INTERVAL : Nat := 500

/-- Stop waiting after 30 seconds (`TIMEOUT` in the source). -/
def TIMEOUT : Nat := 30000

/-- Message of the rejection built in `stopParseLogs`:
`failed to stop parseLogs after ${timeout / 1_000} seconds`. -/
def stopFailMsg : String := "failed to stop parseLogs after 30 seconds"

/-- Model of the `TypeError` thrown when `parseLogs` reads `.signature` of
`undefined` because `getSignaturesForAddress(..., \x7b limit: 1 \x7d)` returned
an empty array. -/
def initFailMsg : String := "TypeError: Cannot read properties of undefined (reading signature)"

/-- The marker the source filters log lines with: `"Program data:"`. -/
def programDataMarker : String := "Program data:"

/-- One element of a `getSignaturesForAddress` response
(`ConfirmedSignatureInfo`): the fields the source reads. -/
structure SignatureRecord where
  signature : String
  slot : Nat
deriving DecidableEq

/-- The `meta` field of a fetched transaction: the fields the source reads. -/
structure TxMeta where
  logMessages : Option (List String)
  err : Option String
deriving DecidableEq

/-- A fetched transaction as `handleSignature` sees it. -/
structure Tx where
  meta : Option TxMeta
deriving DecidableEq

/-- The mutable fields of a `FillFeed` object together with the two local
variables of `parseLogs` (`lastSignature`, `lastSlot`) that constitute the
Cursor, and a flag recording whether `wss.close()` has run. -/
structure FeedState where
  lastSignature : String
  lastSlot : Nat
  processingSignatures : List String
  lastUpdateUnix : Nat
  shouldEnd : Bool
  ended : Bool
  wssClosed : Bool
deriving DecidableEq

/-- Splitting a character list at every character satisfying `p`:
consecutive separators yield empty tokens and the result is never empty. -/
def splitOnPred (p : Char → Bool) : List Char → List (List Char)
  | [] => [[]]
  | x :: xs =>
    if p x then [] :: splitOnPred p xs
    else
      match splitOnPred p xs with
      | [] => [[x]]
      | t :: ts => (x :: t) :: ts

/-- JS `String.prototype.split` with a single-character separator. -/
def splitOnChar (c : Char) (cs : List Char) : List (List Char) :=
  splitOnPred (fun x => x == c) cs

/-- `line.split(" ")` from the source, as a list of strings. -/
def jsSplitSpace (s : String) : List String :=
  (splitOnChar ' ' s.data).map (fun cs => String.mk cs)

/-- `programDataEntry.split(" ")[2]` from `handleSignature`.  When the line
has fewer than three space-separated fields, JS yields `undefined`, which
`atob` coerces to the string `"undefined"`. -/
def extractPayload (line : String) : String :=
  (jsSplitSpace line).getD 2 "undefined"

/-- Whether `hay` starts with `needle`, on character lists. -/
def startsWithChars : List Char → List Char → Bool
  | _, [] => true
  | [], _ :: _ => false
  | h :: hs, n :: ns => h = n && startsWithChars hs ns

/-- Whether `needle` occurs contiguously inside `hay`, on character lists. -/
def containsSeq (needle : List Char) : List Char → Bool
  | [] => needle.isEmpty
  | c :: rest => startsWithChars (c :: rest) needle || containsSeq needle rest

/-- JS `line.includes(marker)`. -/
def jsIncludes (line marker : String) : Bool :=
  containsSeq marker.data line.data

/-- Helper of `jsSetFrom`: keeps the first occurrence of each element, in
order, skipping elements already seen. -/
def dedupAux (seen : List String) : List String → List String
  | [] => []
  | x :: xs => if x ∈ seen then dedupAux seen xs else x :: dedupAux (x :: seen) xs

/-- `Array.from(new Set(l))` from `handleSignature`: duplicates removed,
first-occurrence order kept. -/
def jsSetFrom (l : List String) : List String :=
  dedupAux [] l

/-- Second definition, written from the SPEC words of claim C10 and not from
the source, for refinement comparison only: the whitespace-separated tokens
of a line (splitting on whitespace and discarding empty tokens). -/
def specWhitespaceTokens (s : String) : List String :=
  ((splitOnPred (fun c => c.isWhitespace) s.data).map (fun cs => String.mk cs)).filter
    (fun t => t ≠ "")

/-- The per-payload tail of the `for (const programDataEntry of programDatas)`
loop of `handleSignature`, taking the already-extracted payload strings:
a decode exception aborts (propagates), an unmatched discriminator is
skipped, a decoded event is collected in order. -/
def processPayloads {ε : Type} (decode : String → Except String (Option ε)) :
    List String → Except String (List ε)
  | [] => .ok []
  | p :: rest =>
    match decode p with
    | .error e => .error e
    | .ok none => processPayloads decode rest
    | .ok (some ev) =>
      match processPayloads decode rest with
      | .error e => .error e
      | .ok evs => .ok (ev :: evs)

/-- The `for (const programDataEntry of programDatas)` loop of
`handleSignature`: for each entry the payload is `entry.split(" ")[2]`,
which is then decoded. -/
def processDatas {ε : Type} (decode : String → Except String (Option ε)) :
    List String → Except String (List ε)
  | [] => .ok []
  | entry :: rest =>
    match decode (extractPayload entry) with
    | .error e => .error e
    | .ok none => processDatas decode rest
    | .ok (some ev) =>
      match processDatas decode rest with
      | .error e => .error e
      | .ok evs => .ok (ev :: evs)

/-- `FillFeed.handleSignature`: fetch the transaction; return (no error, no
events) when the detail is unavailable, carries no `logMessages`, or has a
non-null `err`; otherwise filter the log lines containing `"Program data:"`,
deduplicate them, and run the decode loop.  The returned list is the
sequence of events fanned out (prometheus counter + websocket clients). -/
def handleSignature {ε : Type} (getTx : String → Option Tx)
    (decode : String → Except String (Option ε)) (sig : SignatureRecord) :
    Except String (List ε) :=
  match getTx sig.signature with
  | none => .ok []
  | some tx =>
    match tx.meta with
    | none => .ok []
    | some meta =>
      match meta.logMessages with
      | none => .ok []
      | some messages =>
        match meta.err with
        | some _ => .ok []
        | none =>
          match jsSetFrom (messages.filter (fun m => jsIncludes m programDataMarker)) with
          | [] => .ok []
          | entry :: rest => processDatas decode (entry :: rest)

/-- The trim policy at the end of a batch: if the set holds more than 1000
signatures, keep `Array.from(set).slice(-1000)`, the most recent 1000 in
insertion order. -/
def trimDedup (l : List String) : List String :=
  if l.length > 1000 then l.drop (l.length - 1000) else l

/-- The `for (const signature of signatures)` loop of `parseLogs`: skip a
signature already in `processingSignatures`, skip one whose slot is below
`lastSlot`, otherwise add it to the set, handle it, and delete it from the
set.  Errors (a `handleSignature` throw) carry the object state at the
moment of the throw; successes return the final state, the concatenated
events, and the list of signatures actually handled, in order. -/
def processSigs {ε : Type} (handle : SignatureRecord → Except String (List ε)) (s : FeedState) :
    List SignatureRecord → Except (String × FeedState) (FeedState × List ε × List SignatureRecord)
  | [] => .ok (s, [], [])
  | sig :: rest =>
    if sig.signature ∈ s.processingSignatures then
      processSigs handle s rest
    else if sig.slot < s.lastSlot then
      processSigs handle s rest
    else
      match handle sig with
      | .error e =>
        .error (e, { s with processingSignatures := s.processingSignatures ++ [sig.signature] })
      | .ok evs =>
        match processSigs handle
            { s with processingSignatures :=
                (s.processingSignatures ++ [sig.signature]).erase sig.signature } rest with
        | .error es => .error es
        | .ok (s3, evs3, procs3) => .ok (s3, evs ++ evs3, sig :: procs3)

/-- One iteration of the `while` body of `parseLogs` for a poll that returned
`raw` (most-recent-first, as delivered): reverse to oldest-first, `continue`
on an empty batch, otherwise run the signature loop, then set the Cursor to
the last element of the reversed batch, stamp `lastUpdateUnix := now`, and
apply the trim policy. -/
def batchStep {ε : Type} (getTx : String → Option Tx)
    (decode : String → Except String (Option ε)) (now : Nat) (s : FeedState)
    (raw : List SignatureRecord) :
    Except (String × FeedState) (FeedState × List ε × List SignatureRecord) :=
  if raw.reverse.length < 1 then .ok (s, [], [])
  else
    match processSigs (handleSignature getTx decode) s raw.reverse with
    | .error e => .error e
    | .ok (s1, evs, procs) =>
      .ok ({ s1 with
              lastSignature := (raw.reverse.getLastD ⟨"", 0⟩).signature,
              lastSlot := (raw.reverse.getLastD ⟨"", 0⟩).slot,
              lastUpdateUnix := now,
              processingSignatures := trimDedup s1.processingSignatures }, evs, procs)

/-- The `while (!this.shouldEnd && ...)` loop of `parseLogs`, driven by the
finite list of polls that occur before the loop condition turns false: on
normal exit the websocket server is closed and `ended` is set; an exception
in a batch escapes with the object state at the throw. -/
def runLoop {ε : Type} (getTx : String → Option Tx)
    (decode : String → Except String (Option ε)) :
    FeedState → List (Nat × List SignatureRecord) → Except (String × FeedState) FeedState
  | s, [] => .ok { s with wssClosed := true, ended := true }
  | s, (now, raw) :: rest =>
    match batchStep getTx decode now s raw with
    | .error e => .error e
    | .ok (s1, _, _) => runLoop getTx decode s1 rest

/-- The head of `parseLogs`: `initialSigs` is the response to
`getSignaturesForAddress(PROGRAM_ID, \x7b limit: 1 \x7d, "finalized")` — the
single most recent signature.  Reading `[0].signature` of an empty response
throws a `TypeError`; otherwise the Cursor is initialised from it. -/
def parseLogsInit (initialSigs : List SignatureRecord) (s : FeedState) :
    Except String FeedState :=
  match initialSigs with
  | [] => .error initFailMsg
  | first :: _ =>
    .ok { s with lastSignature := first.signature, lastSlot := first.slot }

/-- `FillFeed.parseLogs` end to end: initialise the Cursor from the limit-1
query, then run the poll loop.  An initialisation failure propagates to the
caller with the state untouched. -/
def parseLogs {ε : Type} (getTx : String → Option Tx)
    (decode : String → Except String (Option ε))
    (initialSigs : List SignatureRecord) (batches : List (Nat × List SignatureRecord))
    (s : FeedState) : Except (String × FeedState) FeedState :=
  match parseLogsInit initialSigs s with
  | .error e => .error (e, s)
  | .ok s1 => runLoop getTx decode s1 batches

/-- The wait loop of `stopParseLogs`: at poll `k` (elapsed time
`k * POLL_INTERVAL` ms) the `ended` flag is observed; if set the promise
resolves, otherwise if the elapsed time exceeds `TIMEOUT` the promise
rejects.  `fuel` bounds the recursion; 62 polls cover the whole window,
since at `k = 61` the elapsed 30500 ms already exceeds `TIMEOUT`. -/
def stopWaitAux (ended : Nat → Bool) : Nat → Nat → Except String Unit
  | _, 0 => .error stopFailMsg
  | k, fuel + 1 =>
    if ended (k * POLL_INTERVAL) then .ok ()
    else if k * POLL_INTERVAL > TIMEOUT then .error stopFailMsg
    else stopWaitAux ended (k + 1) fuel

/-- `FillFeed.stopParseLogs`: set `shouldEnd`, then poll the `ended` flag
(observed through the `ended` stream, since the loop runs concurrently)
every `POLL_INTERVAL` ms up to `TIMEOUT`.  The wait itself never mutates the
object, so the returned state is the input with only `shouldEnd` set. -/
def stopParseLogs (s : FeedState) (ended : Nat → Bool) :
    Except String Unit × FeedState :=
  (stopWaitAux ended 0 62, { s with shouldEnd := true })

/-! ### Helper lemmas about the signature loop and the batch step -/

theorem processSigs_ok_inv {ε : Type} {handle : SignatureRecord → Except String (List ε)}
    (sigs : List SignatureRecord) :
    ∀ {s s' : FeedState} {evs : List ε} {procs : List SignatureRecord},
      processSigs handle s sigs = .ok (s', evs, procs) →
      s'.lastSignature = s.lastSignature ∧ s'.lastSlot = s.lastSlot ∧
      s'.lastUpdateUnix = s.lastUpdateUnix ∧ s'.shouldEnd = s.shouldEnd ∧
      s'.ended = s.ended ∧ s'.wssClosed = s.wssClosed := by
  induction sigs with
  | nil =>
    intro s s' evs procs h
    simp only [processSigs, Except.ok.injEq, Prod.mk.injEq] at h
    obtain ⟨h1, -, -⟩ := h
    subst h1
    exact ⟨rfl, rfl, rfl, rfl, rfl, rfl⟩
  | cons sig rest ih =>
    intro s s' evs procs h
    simp only [processSigs] at h
    split at h
    · exact ih h
    · split at h
      · exact ih h
      · split at h
        · simp at h
        · split at h
          · simp at h
          · rename_i s3 evs3 procs3 heq2
            simp only [Except.ok.injEq, Prod.mk.injEq] at h
            obtain ⟨h1, -, -⟩ := h
            subst h1
            have hrec := ih heq2
            exact hrec

theorem processSigs_err {ε : Type} {handle : SignatureRecord → Except String (List ε)}
    (sigs : List SignatureRecord) :
    ∀ {s : FeedState} {e : String} {st : FeedState},
      processSigs handle s sigs = .error (e, st) →
      st.ended = s.ended ∧ st.wssClosed = s.wssClosed ∧
      ∃ sig, sig ∈ sigs ∧ handle sig = .error e ∧
        sig.signature ∈ st.processingSignatures := by
  induction sigs with
  | nil =>
    intro s e st h
    simp [processSigs] at h
  | cons sig rest ih =>
    intro s e st h
    simp only [processSigs] at h
    split at h
    · obtain ⟨h1, h2, sig', hmem, hh, hmem2⟩ := ih h
      exact ⟨h1, h2, sig', List.mem_cons_of_mem _ hmem, hh, hmem2⟩
    · split at h
      · obtain ⟨h1, h2, sig', hmem, hh, hmem2⟩ := ih h
        exact ⟨h1, h2, sig', List.mem_cons_of_mem _ hmem, hh, hmem2⟩
      · split at h
        · rename_i e0 heq
          simp only [Except.error.injEq, Prod.mk.injEq] at h
          obtain ⟨he, hst⟩ := h
          subst he
          subst hst
          exact ⟨rfl, rfl, sig, List.mem_cons_self _ _, heq, by simp⟩
        · split at h
          · rename_i heq2
            simp only [Except.error.injEq] at h
            subst h
            obtain ⟨h1, h2, sig', hmem, hh, hmem2⟩ := ih heq2
            exact ⟨h1, h2, sig', List.mem_cons_of_mem _ hmem, hh, hmem2⟩
          · simp at h

theorem processSigs_slot {ε : Type} {handle : SignatureRecord → Except String (List ε)}
    (sigs : List SignatureRecord) :
    ∀ {s s' : FeedState} {evs : List ε} {procs : List SignatureRecord},
      processSigs handle s sigs = .ok (s', evs, procs) →
      ∀ sig ∈ procs, s.lastSlot ≤ sig.slot := by
  induction sigs with
  | nil =>
    intro s s' evs procs h
    simp only [processSigs, Except.ok.injEq, Prod.mk.injEq] at h
    obtain ⟨-, -, h3⟩ := h
    subst h3
    simp
  | cons sig rest ih =>
    intro s s' evs procs h
    simp only [processSigs] at h
    split at h
    · exact ih h
    · split at h
      · exact ih h
      · rename_i hslot
        split at h
        · simp at h
        · split at h
          · simp at h
          · rename_i s3 evs3 procs3 heq2
            simp only [Except.ok.injEq, Prod.mk.injEq] at h
            obtain ⟨-, -, h3⟩ := h
            subst h3
            intro x hx
            rcases List.mem_cons.mp hx with rfl | hx'
            · omega
            · have hrec := ih heq2
              exact hrec x hx'

theorem processSigs_all_ok {ε : Type} {handle : SignatureRecord → Except String (List ε)}
    (hall : ∀ sig, handle sig = .ok []) (sigs : List SignatureRecord) :
    ∀ s : FeedState, ∃ s' procs, processSigs handle s sigs = .ok (s', [], procs) := by
  induction sigs with
  | nil => intro s; exact ⟨s, [], rfl⟩
  | cons sig rest ih =>
    intro s
    simp only [processSigs]
    split
    · exact ih s
    · split
      · exact ih s
      · rw [hall sig]
        obtain ⟨s', procs, hrec⟩ :=
          ih { s with processingSignatures :=
                (s.processingSignatures ++ [sig.signature]).erase sig.signature }
        rw [hrec]
        exact ⟨s', sig :: procs, rfl⟩

theorem batchStep_err {ε : Type} {getTx : String → Option Tx}
    {decode : String → Except String (Option ε)} {now : Nat} {s : FeedState}
    {raw : List SignatureRecord} {e : String} {st : FeedState}
    (h : batchStep getTx decode now s raw = .error (e, st)) :
    processSigs (handleSignature getTx decode) s raw.reverse = .error (e, st) := by
  simp only [batchStep] at h
  split at h
  · simp at h
  · split at h
    · rename_i e0 heq
      simp only [Except.error.injEq] at h
      subst h
      exact heq
    · simp at h

theorem batchStep_ok_elim {ε : Type} {getTx : String → Option Tx}
    {decode : String → Except String (Option ε)} {now : Nat} {s : FeedState}
    {raw : List SignatureRecord} {s' : FeedState} {evs : List ε}
    {procs : List SignatureRecord} (hne : raw ≠ [])
    (h : batchStep getTx decode now s raw = .ok (s', evs, procs)) :
    ∃ s1, processSigs (handleSignature getTx decode) s raw.reverse = .ok (s1, evs, procs) ∧
      s' = { s1 with
              lastSignature := (raw.reverse.getLastD ⟨"", 0⟩).signature,
              lastSlot := (raw.reverse.getLastD ⟨"", 0⟩).slot,
              lastUpdateUnix := now,
              processingSignatures := trimDedup s1.processingSignatures } := by
  have hpos : 0 < raw.length := List.length_pos.mpr hne
  have hlen : ¬ raw.reverse.length < 1 := by
    simp only [List.length_reverse]
    omega
  simp only [batchStep, if_neg hlen] at h
  split at h
  · simp at h
  · rename_i s1 evs1 procs1 heq
    simp only [Except.ok.injEq, Prod.mk.injEq] at h
    obtain ⟨h1, h2, h3⟩ := h
    subst h1
    subst h2
    subst h3
    exact ⟨s1, heq, rfl⟩

theorem batchStep_ok_flags {ε : Type} {getTx : String → Option Tx}
    {decode : String → Except String (Option ε)} {now : Nat} {s : FeedState}
    {raw : List SignatureRecord} {s' : FeedState} {evs : List ε}
    {procs : List SignatureRecord}
    (h : batchStep getTx decode now s raw = .ok (s', evs, procs)) :
    s'.ended = s.ended ∧ s'.wssClosed = s.wssClosed := by
  simp only [batchStep] at h
  split at h
  · simp only [Except.ok.injEq, Prod.mk.injEq] at h
    obtain ⟨h1, -, -⟩ := h
    subst h1
    exact ⟨rfl, rfl⟩
  · split at h
    · simp at h
    · rename_i s1 evs1 procs1 heq
      simp only [Except.ok.injEq, Prod.mk.injEq] at h
      obtain ⟨h1, -, -⟩ := h
      subst h1
      obtain ⟨-, -, -, -, h5, h6⟩ := processSigs_ok_inv _ heq
      exact ⟨h5, h6⟩

theorem processDatas_eq_payloads {ε : Type} (decode : String → Except String (Option ε))
    (entries : List String) :
    processDatas decode entries = processPayloads decode (entries.map extractPayload) := by
  induction entries with
  | nil => rfl
  | cons e rest ih =>
    simp only [processDatas, List.map_cons, processPayloads, ih]

theorem stopWaitAux_resolves (ended : Nat → Bool) :
    ∀ fuel k, k + fuel = 62 →
      (∃ j, k ≤ j ∧ j ≤ 61 ∧ ended (j * POLL_INTERVAL) = true) →
      stopWaitAux ended k fuel = .ok () := by
  intro fuel
  induction fuel with
  | zero =>
    intro k hk hex
    obtain ⟨j, h1, h2, -⟩ := hex
    omega
  | succ f ih =>
    intro k hk hex
    obtain ⟨j, h1, h2, h3⟩ := hex
    simp only [stopWaitAux]
    by_cases he : ended (k * POLL_INTERVAL) = true
    · rw [if_pos he]
    · have hjk : j ≠ k := fun hh => he (hh ▸ h3)
      have hto : ¬ k * POLL_INTERVAL > TIMEOUT := by
        simp only [POLL_INTERVAL, TIMEOUT]
        omega
      rw [if_neg he, if_neg hto]
      exact ih (k + 1) (by omega) ⟨j, by omega, h2, h3⟩

theorem stopWaitAux_times_out (ended : Nat → Bool) :
    ∀ fuel k, k + fuel = 62 →
      (∀ j, k ≤ j → j ≤ 61 → ended (j * POLL_INTERVAL) = false) →
      stopWaitAux ended k fuel = .error stopFailMsg := by
  intro fuel
  induction fuel with
  | zero => intro k hk hall; rfl
  | succ f ih =>
    intro k hk hall
    have hk61 : k ≤ 61 := by omega
    have he : ended (k * POLL_INTERVAL) = false := hall k le_rfl hk61
    simp only [stopWaitAux]
    rw [if_neg (by simp [he])]
    by_cases hto : k * POLL_INTERVAL > TIMEOUT
    · rw [if_pos hto]
    · rw [if_neg hto]
      exact ih (k + 1) (by omega) (fun j hj hj61 => hall j (by omega) hj61)

/-! ### Claim theorems -/

/-- C1 (code_bug evidence): in one loop iteration with an empty DedupSet and
`lastSlot = 0`, a batch containing the same signature twice gets that
signature handled TWICE — the third component of the result is the list of
signatures for which `handleSignature` ran, and it holds `("A", 5)` two
times.  The source deletes a signature from `processingSignatures`
immediately after handling it, so the `has` check never fires for the
second occurrence, contradicting the declared purpose of the set
("avoid processing the same signature twice") and the claim that a
signature appearing twice in the same batch is processed at most once. -/
theorem c1_duplicate_in_batch_handled_twice :
    batchStep (fun _ => none) (fun _ => .ok (none : Option Unit)) 0
      ⟨"init", 0, [], 0, false, false, false⟩ [⟨"A", 5⟩, ⟨"A", 5⟩]
      = .ok (⟨"A", 5, [], 0, false, false, false⟩, [], [⟨"A", 5⟩, ⟨"A", 5⟩]) := rfl

/-- C2 (counterexample): with `lastSlot = 10`, a poll that delivers the
single out-of-order record `("B", 5)` skips it (nothing is handled), yet
the Cursor is still rewritten to `("B", 5)`: `lastSlot` regresses from 10
to 5, refuting "the Cursor's lastSlot never decreases". -/
theorem c2_counterexample_cursor_regresses :
    batchStep (fun _ => none) (fun _ => .ok (none : Option Unit)) 0
      ⟨"init", 10, [], 0, false, false, false⟩ [⟨"B", 5⟩]
      = .ok (⟨"B", 5, [], 0, false, false, false⟩, [], []) ∧ (5 : Nat) < 10 :=
  ⟨rfl, by omega⟩

/-- C2 (amended): every signature handled in a batch has slot at least the
`lastSlot` held at the start of the batch (signatures with a strictly
smaller slot are skipped), but after a non-empty batch `lastSlot` is set to
the slot of the final element of the oldest-first batch whether or not that
element was processed, so the Cursor can regress on an out-of-order
delivery. -/
theorem c2_skip_low_slots_cursor_from_last_element {ε : Type}
    (getTx : String → Option Tx) (decode : String → Except String (Option ε))
    (now : Nat) (s : FeedState) (raw : List SignatureRecord) (s' : FeedState)
    (evs : List ε) (procs : List SignatureRecord)
    (hok : batchStep getTx decode now s raw = .ok (s', evs, procs)) :
    (∀ sig ∈ procs, s.lastSlot ≤ sig.slot) ∧
    (raw ≠ [] → s'.lastSlot = (raw.reverse.getLastD ⟨"", 0⟩).slot) := by
  constructor
  · intro sig hmem
    by_cases hne : raw = []
    · subst hne
      simp only [batchStep, List.reverse_nil, List.length_nil] at hok
      rw [if_pos (by omega)] at hok
      simp only [Except.ok.injEq, Prod.mk.injEq] at hok
      obtain ⟨-, -, h3⟩ := hok
      subst h3
      simp at hmem
    · obtain ⟨s1, heq, -⟩ := batchStep_ok_elim hne hok
      exact processSigs_slot _ heq sig hmem
  · intro hne
    obtain ⟨s1, -, rfl⟩ := batchStep_ok_elim hne hok
    rfl

/-- Witness for C2: the amended theorem applied to the concrete regression
batch. -/
theorem c2_witness :
    (∀ sig ∈ ([] : List SignatureRecord),
      (⟨"init", 10, [], 0, false, false, false⟩ : FeedState).lastSlot ≤ sig.slot) ∧
    (([⟨"B", 5⟩] : List SignatureRecord) ≠ [] →
      (⟨"B", 5, [], 0, false, false, false⟩ : FeedState).lastSlot
        = (([⟨"B", 5⟩] : List SignatureRecord).reverse.getLastD ⟨"", 0⟩).slot) :=
  c2_skip_low_slots_cursor_from_last_element (fun _ => none)
    (fun _ => .ok (none : Option Unit)) 0 ⟨"init", 10, [], 0, false, false, false⟩
    [⟨"B", 5⟩] ⟨"B", 5, [], 0, false, false, false⟩ [] [] rfl

/-- C3 (counterexample): with `lastSlot = 10` and the batch
`[("B",5), ("A",20)]` (delivered most-recent-first, so processed oldest
first as `[("A",20), ("B",5)]`), only `("A",20)` is handled, yet the Cursor
is set to `("B", 5)` — the last BATCH element, not the last PROCESSED
signature — refuting "the Cursor is set to the last (most recent)
processed signature and slot". -/
theorem c3_counterexample_cursor_not_last_processed :
    (batchStep (fun _ => none) (fun _ => .ok (none : Option Unit)) 99
      ⟨"init", 10, [], 0, false, false, false⟩ [⟨"B", 5⟩, ⟨"A", 20⟩]
      = .ok (⟨"B", 5, [], 99, false, false, false⟩, [], [⟨"A", 20⟩])) ∧
    ("B" : String) ≠ "A" :=
  ⟨rfl, by decide⟩

/-- C3 (amended): after a non-empty batch the Cursor is set to the
signature and slot of the final element of the oldest-first batch —
whether or not that element was processed — and the liveness timestamp is
set to the current time; an empty poll leaves the state (Cursor, DedupSet
and liveness timestamp) completely unchanged and yields no events. -/
theorem c3_cursor_from_batch_end_empty_poll_unchanged {ε : Type}
    (getTx : String → Option Tx) (decode : String → Except String (Option ε))
    (now : Nat) (s : FeedState) (raw : List SignatureRecord) (s' : FeedState)
    (evs : List ε) (procs : List SignatureRecord) :
    batchStep (ε := ε) getTx decode now s [] = .ok (s, [], []) ∧
    (raw ≠ [] → batchStep getTx decode now s raw = .ok (s', evs, procs) →
      s'.lastSignature = (raw.reverse.getLastD ⟨"", 0⟩).signature ∧
      s'.lastSlot = (raw.reverse.getLastD ⟨"", 0⟩).slot ∧
      s'.lastUpdateUnix = now) := by
  constructor
  · rfl
  · intro hne hok
    obtain ⟨s1, -, rfl⟩ := batchStep_ok_elim hne hok
    exact ⟨rfl, rfl, rfl⟩

/-- Witness for C3: the amended theorem applied to the concrete batch whose
final element was skipped. -/
theorem c3_witness :
    batchStep (fun _ => none) (fun _ => .ok (none : Option Unit)) 99
      ⟨"init", 10, [], 0, false, false, false⟩ ([] : List SignatureRecord)
      = .ok (⟨"init", 10, [], 0, false, false, false⟩, [], []) ∧
    (([⟨"B", 5⟩, ⟨"A", 20⟩] : List SignatureRecord) ≠ [] →
      batchStep (fun _ => none) (fun _ => .ok (none : Option Unit)) 99
        ⟨"init", 10, [], 0, false, false, false⟩ [⟨"B", 5⟩, ⟨"A", 20⟩]
        = .ok (⟨"B", 5, [], 99, false, false, false⟩, [], [⟨"A", 20⟩]) →
      (⟨"B", 5, [], 99, false, false, false⟩ : FeedState).lastSignature
          = (([⟨"B", 5⟩, ⟨"A", 20⟩] : List SignatureRecord).reverse.getLastD ⟨"", 0⟩).signature ∧
      (⟨"B", 5, [], 99, false, false, false⟩ : FeedState).lastSlot
          = (([⟨"B", 5⟩, ⟨"A", 20⟩] : List SignatureRecord).reverse.getLastD ⟨"", 0⟩).slot ∧
      (⟨"B", 5, [], 99, false, false, false⟩ : FeedState).lastUpdateUnix = 99) :=
  c3_cursor_from_batch_end_empty_poll_unchanged (fun _ => none)
    (fun _ => .ok (none : Option Unit)) 99 ⟨"init", 10, [], 0, false, false, false⟩
    [⟨"B", 5⟩, ⟨"A", 20⟩] ⟨"B", 5, [], 99, false, false, false⟩ [] [⟨"A", 20⟩]

/-- C4: `handleSignature` returns without an error and with zero dispatched
events whenever the transaction detail is unavailable, the detail has no
`meta`, the `meta` carries no `logMessages`, or the `meta` records a
transaction-level `err`; and for a non-empty batch all of whose signatures
handle cleanly with zero events (as such skipped transactions do), the
batch succeeds with no events and the Cursor still advances to the batch's
final signature and slot. -/
theorem c4_skips_are_silent_cursor_advances {ε : Type} (getTx : String → Option Tx)
    (decode : String → Except String (Option ε)) :
    (∀ sig, getTx sig.signature = none → handleSignature getTx decode sig = .ok []) ∧
    (∀ sig tx, getTx sig.signature = some tx → tx.meta = none →
      handleSignature getTx decode sig = .ok []) ∧
    (∀ sig tx meta, getTx sig.signature = some tx → tx.meta = some meta →
      meta.logMessages = none → handleSignature getTx decode sig = .ok []) ∧
    (∀ sig tx meta msgs e, getTx sig.signature = some tx → tx.meta = some meta →
      meta.logMessages = some msgs → meta.err = some e →
      handleSignature getTx decode sig = .ok []) ∧
    (∀ (now : Nat) (s : FeedState) (raw : List SignatureRecord), raw ≠ [] →
      (∀ sig, handleSignature getTx decode sig = .ok []) →
      ∃ s' procs, batchStep getTx decode now s raw = .ok (s', [], procs) ∧
        s'.lastSignature = (raw.reverse.getLastD ⟨"", 0⟩).signature ∧
        s'.lastSlot = (raw.reverse.getLastD ⟨"", 0⟩).slot) := by
  refine ⟨?_, ?_, ?_, ?_, ?_⟩
  · intro sig hg
    simp [handleSignature, hg]
  · intro sig tx hg hm
    simp [handleSignature, hg, hm]
  · intro sig tx meta hg hm hl
    simp [handleSignature, hg, hm, hl]
  · intro sig tx meta msgs e hg hm hl he
    simp [handleSignature, hg, hm, hl, he]
  · intro now s raw hne hall
    obtain ⟨s1, procs, heq⟩ := processSigs_all_ok hall raw.reverse s
    have hpos : 0 < raw.length := List.length_pos.mpr hne
    have hlen : ¬ raw.reverse.length < 1 := by
      simp only [List.length_reverse]
      omega
    have hbs : batchStep getTx decode now s raw
        = .ok ({ s1 with
                  lastSignature := (raw.reverse.getLastD ⟨"", 0⟩).signature,
                  lastSlot := (raw.reverse.getLastD ⟨"", 0⟩).slot,
                  lastUpdateUnix := now,
                  processingSignatures := trimDedup s1.processingSignatures },
               [], procs) := by
      simp only [batchStep, if_neg hlen, heq]
    exact ⟨_, procs, hbs, rfl, rfl⟩

/-- Witness for C4: the theorem applied to a transaction whose `meta.err` is
set, inside a one-element batch. -/
theorem c4_witness :
    handleSignature (fun _ => some ⟨some ⟨some ["a log line"], some "InstructionError"⟩⟩)
      (fun _ => .ok (none : Option Unit)) ⟨"E", 7⟩ = .ok [] ∧
    (∃ s' procs,
      batchStep (fun _ => some ⟨some ⟨some ["a log line"], some "InstructionError"⟩⟩)
        (fun _ => .ok (none : Option Unit)) 5 ⟨"init", 0, [], 0, false, false, false⟩
        [⟨"E", 7⟩] = .ok (s', [], procs) ∧
      s'.lastSignature = (([⟨"E", 7⟩] : List SignatureRecord).reverse.getLastD ⟨"", 0⟩).signature ∧
      s'.lastSlot = (([⟨"E", 7⟩] : List SignatureRecord).reverse.getLastD ⟨"", 0⟩).slot) :=
  ⟨(c4_skips_are_silent_cursor_advances
      (fun _ => some ⟨some ⟨some ["a log line"], some "InstructionError"⟩⟩)
      (fun _ => .ok (none : Option Unit))).2.2.2.1 ⟨"E", 7⟩ _ _ _ _ rfl rfl rfl rfl,
   (c4_skips_are_silent_cursor_advances
      (fun _ => some ⟨some ⟨some ["a log line"], some "InstructionError"⟩⟩)
      (fun _ => .ok (none : Option Unit))).2.2.2.2 5
      ⟨"init", 0, [], 0, false, false, false⟩ [⟨"E", 7⟩] (by simp) (fun sig => rfl)⟩

/-- C5: the trim policy applied at the end of every non-empty batch keeps
the DedupSet at no more than 1000 entries, and when the set has grown past
the 1000 high-water mark it keeps exactly the most recent 1000
insertion-order entries (the length-1000 suffix of the insertion-order
list); consequently the `processingSignatures` list of the state produced
by any successful non-empty batch has at most 1000 entries. -/
theorem c5_trim_keeps_most_recent_1000 :
    (∀ l : List String, (trimDedup l).length ≤ 1000 ∧
      (l.length > 1000 → trimDedup l = l.drop (l.length - 1000) ∧
        (trimDedup l).length = 1000)) ∧
    (∀ {ε : Type} (getTx : String → Option Tx)
        (decode : String → Except String (Option ε)) (now : Nat) (s : FeedState)
        (raw : List SignatureRecord) (s' : FeedState) (evs : List ε)
        (procs : List SignatureRecord), raw ≠ [] →
      batchStep getTx decode now s raw = .ok (s', evs, procs) →
      s'.processingSignatures.length ≤ 1000) := by
  have htrim : ∀ l : List String, (trimDedup l).length ≤ 1000 ∧
      (l.length > 1000 → trimDedup l = l.drop (l.length - 1000) ∧
        (trimDedup l).length = 1000) := by
    intro l
    by_cases hgt : l.length > 1000
    · refine ⟨?_, fun _ => ⟨?_, ?_⟩⟩
      · simp only [trimDedup, if_pos hgt, List.length_drop]
        omega
      · simp only [trimDedup, if_pos hgt]
      · simp only [trimDedup, if_pos hgt, List.length_drop]
        omega
    · refine ⟨?_, fun hc => absurd hc hgt⟩
      simp only [trimDedup, if_neg hgt]
      omega
  refine ⟨htrim, ?_⟩
  intro ε getTx decode now s raw s' evs procs hne hok
  obtain ⟨s1, -, rfl⟩ := batchStep_ok_elim hne hok
  exact (htrim s1.processingSignatures).1

/-- Witness for C5: the trim conjunct applied to a 1001-element list and the
batch conjunct applied to a concrete one-element batch. -/
theorem c5_witness :
    ((List.replicate 1001 "s").length > 1000 ∧
      trimDedup (List.replicate 1001 "s")
        = (List.replicate 1001 "s").drop ((List.replicate 1001 "s").length - 1000) ∧
      (trimDedup (List.replicate 1001 "s")).length = 1000) ∧
    (⟨"A", 1, [], 0, false, false, false⟩ : FeedState).processingSignatures.length ≤ 1000 :=
  ⟨⟨by simp only [List.length_replicate]; omega,
    (c5_trim_keeps_most_recent_1000.1 (List.replicate 1001 "s")).2
      (by simp only [List.length_replicate]; omega)⟩,
   c5_trim_keeps_most_recent_1000.2 (fun _ => none) (fun _ => .ok (none : Option Unit))
     0 ⟨"init", 0, [], 0, false, false, false⟩ [⟨"A", 1⟩]
     ⟨"A", 1, [], 0, false, false, false⟩ [] [⟨"A", 1⟩] (by simp) rfl⟩

/-- C6: `stopParseLogs` sets the stop flag and then polls the loop's
`ended` flag every `POLL_INTERVAL` ms; if some poll within the timeout
window (polls 0..61, elapsed time up to 30500 ms, the first poll at which
the elapsed time exceeds `TIMEOUT`) observes the loop stopped, the promise
resolves, and if no poll in that window observes it the promise rejects
with the shutdown-timeout error; in both cases the wait mutates nothing —
the resulting object state is the input state with only `shouldEnd` set
(which happened on entry, before the wait), so a caller may retry. -/
theorem c6_stop_and_wait (s : FeedState) (ended : Nat → Bool) :
    ((∃ j, j ≤ 61 ∧ ended (j * POLL_INTERVAL) = true) →
      stopParseLogs s ended = (.ok (), { s with shouldEnd := true })) ∧
    ((∀ j, j ≤ 61 → ended (j * POLL_INTERVAL) = false) →
      stopParseLogs s ended
        = (.error "failed to stop parseLogs after 30 seconds",
           { s with shouldEnd := true })) := by
  constructor
  · intro hex
    obtain ⟨j, h1, h2⟩ := hex
    unfold stopParseLogs
    rw [stopWaitAux_resolves ended 62 0 rfl ⟨j, Nat.zero_le j, h1, h2⟩]
  · intro hall
    unfold stopParseLogs
    rw [stopWaitAux_times_out ended 62 0 rfl (fun j _ hj => hall j hj)]
    rfl

/-- Witness for C6: the theorem applied to a loop that has already stopped
(resolves) and to a loop that never stops (rejects with the timeout
message). -/
theorem c6_witness :
    stopParseLogs ⟨"sig", 3, ["p"], 9, false, true, false⟩ (fun _ => true)
      = (.ok (), ⟨"sig", 3, ["p"], 9, true, true, false⟩) ∧
    stopParseLogs ⟨"sig", 3, ["p"], 9, false, false, false⟩ (fun _ => false)
      = (.error "failed to stop parseLogs after 30 seconds",
         ⟨"sig", 3, ["p"], 9, true, false, false⟩) :=
  ⟨(c6_stop_and_wait ⟨"sig", 3, ["p"], 9, false, true, false⟩ (fun _ => true)).1
      ⟨0, by omega, rfl⟩,
   (c6_stop_and_wait ⟨"sig", 3, ["p"], 9, false, false, false⟩ (fun _ => false)).2
      (fun j _ => rfl)⟩

/-- C7: at initialisation `parseLogs` reads element 0 of the response to the
limit-1 most-recent-signature query; an empty response makes `parseLogs`
fail fatally — the error propagates to the caller and no loop iteration
runs — while a non-empty response initialises the Cursor from its first
(single most recent) record. -/
theorem c7_init_requires_a_signature {ε : Type} (getTx : String → Option Tx)
    (decode : String → Except String (Option ε))
    (batches : List (Nat × List SignatureRecord)) (s : FeedState)
    (r : SignatureRecord) (rest : List SignatureRecord) :
    parseLogs getTx decode [] batches s
      = .error ("TypeError: Cannot read properties of undefined (reading signature)", s) ∧
    parseLogsInit (r :: rest) s
      = .ok { s with lastSignature := r.signature, lastSlot := r.slot } :=
  ⟨rfl, rfl⟩

/-- C9: when `handleSignature` throws for some signature during the poll
loop, the exception escapes `parseLogs`: the state at the throw still
contains that signature in the DedupSet (the `delete` after the handle
never ran), the loop exits without setting `ended` and without closing the
websocket server, and — because `ended` therefore stays false — a
subsequent stop-and-wait can only run out its full window and reject with
the shutdown-timeout error. -/
theorem c9_handle_error_escapes_loop {ε : Type} (getTx : String → Option Tx)
    (decode : String → Except String (Option ε)) (s : FeedState)
    (batches : List (Nat × List SignatureRecord)) (e : String) (st : FeedState)
    (hended : s.ended = false) (hwss : s.wssClosed = false)
    (hrun : runLoop getTx decode s batches = .error (e, st)) :
    st.ended = false ∧ st.wssClosed = false ∧
    (∃ sig, handleSignature getTx decode sig = .error e ∧
      sig.signature ∈ st.processingSignatures) ∧
    stopWaitAux (fun _ => false) 0 62 = .error stopFailMsg := by
  induction batches generalizing s with
  | nil => simp [runLoop] at hrun
  | cons b rest ih =>
    obtain ⟨now, raw⟩ := b
    simp only [runLoop] at hrun
    split at hrun
    · rename_i e0 heq
      simp only [Except.error.injEq] at hrun
      subst hrun
      have hps := batchStep_err heq
      obtain ⟨h1, h2, sig0, -, hh, hmem2⟩ := processSigs_err _ hps
      exact ⟨h1.trans hended, h2.trans hwss, ⟨sig0, hh, hmem2⟩, rfl⟩
    · rename_i s1 evs procs heq
      obtain ⟨hf1, hf2⟩ := batchStep_ok_flags heq
      exact ih s1 (hf1.trans hended) (hf2.trans hwss) hrun

/-- Witness for C9: a one-batch run in which decoding throws `"boom"` on the
only signature. -/
theorem c9_witness :
    (⟨"init", 0, ["A"], 0, false, false, false⟩ : FeedState).ended = false ∧
    (⟨"init", 0, ["A"], 0, false, false, false⟩ : FeedState).wssClosed = false ∧
    (∃ sig, handleSignature (fun _ => some ⟨some ⟨some ["Program data: x"], none⟩⟩)
        (fun _ => (.error "boom" : Except String (Option Unit))) sig = .error "boom" ∧
      sig.signature ∈ (⟨"init", 0, ["A"], 0, false, false, false⟩ : FeedState).processingSignatures) ∧
    stopWaitAux (fun _ => false) 0 62 = .error stopFailMsg :=
  c9_handle_error_escapes_loop (fun _ => some ⟨some ⟨some ["Program data: x"], none⟩⟩)
    (fun _ => (.error "boom" : Except String (Option Unit)))
    ⟨"init", 0, [], 0, false, false, false⟩ [(0, [⟨"A", 1⟩])] "boom"
    ⟨"init", 0, ["A"], 0, false, false, false⟩ rfl rfl rfl

/-- C10 (counterexample): the line `"x  Program data: abc"` (note the double
space) contains the marker and is selected, but the payload the code
decodes is `split(" ")[2] = "Program"`, whereas the third
whitespace-separated token of that line is `"data:"` — so the decoded
payload is NOT always the third whitespace-separated token, refuting the
claim as stated. -/
theorem c10_counterexample_not_whitespace_token :
    jsIncludes "x  Program data: abc" programDataMarker = true ∧
    extractPayload "x  Program data: abc" = "Program" ∧
    (specWhitespaceTokens "x  Program data: abc").get? 2 = some "data:" ∧
    ("Program" : String) ≠ "data:" ∧
    handleSignature (fun _ => some ⟨some ⟨some ["x  Program data: abc"], none⟩⟩)
      (fun p => .ok (some p)) ⟨"S", 1⟩ = .ok ["Program"] :=
  ⟨rfl, rfl, rfl, by decide, rfl⟩

/-- C10 (amended): for every transaction that reaches the decode loop, the
events of `handleSignature` are exactly those obtained by decoding, for
each selected (marker-containing, deduplicated) log line, the element at
index 2 of the line split on single space characters (JS `split(" ")`,
empty tokens from consecutive spaces included, `"undefined"` when absent) —
regardless of where the marker appears within the line. -/
theorem c10_payload_is_space_token_two {ε : Type} (getTx : String → Option Tx)
    (decode : String → Except String (Option ε)) (sig : SignatureRecord)
    (tx : Tx) (meta : TxMeta) (msgs : List String)
    (h1 : getTx sig.signature = some tx) (h2 : tx.meta = some meta)
    (h3 : meta.logMessages = some msgs) (h4 : meta.err = none) :
    handleSignature getTx decode sig =
      processPayloads decode
        ((jsSetFrom (msgs.filter (fun m => jsIncludes m programDataMarker))).map
          extractPayload) := by
  simp only [handleSignature, h1, h2, h3, h4]
  cases hds : jsSetFrom (msgs.filter (fun m => jsIncludes m programDataMarker)) with
  | nil => rfl
  | cons entry rest =>
    exact processDatas_eq_payloads decode (entry :: rest)

/-- Witness for C10: the amended theorem applied to a transaction carrying
one unrelated line and one duplicated program-data line. -/
theorem c10_witness :
    handleSignature
      (fun _ => some ⟨some ⟨some ["Program log: a", "Program data: QUJD",
        "Program data: QUJD"], none⟩⟩)
      (fun p => .ok (some p)) ⟨"W", 3⟩ =
      processPayloads (fun p => .ok (some p))
        ((jsSetFrom ((["Program log: a", "Program data: QUJD",
            "Program data: QUJD"] : List String).filter
          (fun m => jsIncludes m programDataMarker))).map extractPayload) :=
  c10_payload_is_space_token_two
    (fun _ => some ⟨some ⟨some ["Program log: a", "Program data: QUJD",
      "Program data: QUJD"], none⟩⟩)
    (fun p => .ok (some p)) ⟨"W", 3⟩ _ _ _ rfl rfl rfl rfl
